import Mathlib

/-!
Verification of the presence-tracking cache in `src/playercount.js`
(repository wayhaven-fullstack-web).

The module keeps a process-wide mutable `Map` (`onlineMembers`) from user
identifier to a member snapshot, an `enabled` boolean, and a `client`
reference.  We embed the JavaScript `Map` as an ordered association list
(`List (String × MemberSnapshot)`) with the exact `Map` semantics:
`set` on an existing key rewrites the value in place (keeping insertion
order), `set` on a fresh key appends, `delete` removes.  JavaScript
option-chaining values (`x?.y`) are embedded as `Option`, thrown
exceptions as explicit outcome flags, and the external discord.js calls
(`login`, `guilds.fetch`, `members.fetch`, `displayAvatarURL`) as data
supplied by an environment record.
-/

namespace Playercount

/-- The stored record for one member: built at `playercount.js` lines 48-53
(seeding) and lines 75-80 (presence update).  `avatar` is `Option` because
`newPresence.user?.displayAvatarURL?.()` can be `undefined`. -/
structure MemberSnapshot where
  id : String
  username : String
  avatar : Option String
  status : String
deriving Repr, DecidableEq

/-- The `onlineMembers` JavaScript `Map`, embedded as an insertion-ordered
association list. -/
abbrev Cache := List (String × MemberSnapshot)

/-- JavaScript `Map.prototype.set`: if the key is present, overwrite the
value in place (insertion order kept); otherwise append the new entry. -/
def mapSet (c : Cache) (k : String) (v : MemberSnapshot) : Cache :=
  if c.any (fun p => p.1 = k) then
    c.map (fun p => if p.1 = k then (k, v) else p)
  else
    c ++ [(k, v)]

/-- JavaScript `Map.prototype.delete`: remove the entry with the given key
(no-op when absent). -/
def mapDelete (c : Cache) (k : String) : Cache :=
  c.filter (fun p => decide (p.1 ≠ k))

/-- JavaScript `Map.prototype.get`, for stating key-to-value facts. -/
def mapGet (c : Cache) (k : String) : Option MemberSnapshot :=
  (c.find? (fun p => p.1 = k)).map Prod.snd

/-- The classified-status list `['online', 'idle', 'dnd']` that appears
literally at `playercount.js` lines 46 and 71. -/
def onlineStatusList : List String := ["online", "idle", "dnd"]

/-- The status classifier named `isOnlineStatus` by the spec:
membership in the classified set. -/
def isOnlineStatus (s : String) : Bool := onlineStatusList.contains s

/-- The seeding call-site check, line 46:
`['online', 'idle', 'dnd'].includes(p.status)` (the `p &&` guard is the
`Option` match on the presence, done by the caller). -/
def seedClassified (s : String) : Bool :=
  (["online", "idle", "dnd"] : List String).contains s

/-- The ingestion call-site check, line 71:
`status && ['online', 'idle', 'dnd'].includes(status)` — JavaScript
truthiness of a string is being nonempty. -/
def ingestClassified (s : String) : Bool :=
  (!(s = "")) && (["online", "idle", "dnd"] : List String).contains s

/-- `newPresence.user` as far as the handler reads it: `user.id`,
`user.username`, and `user?.displayAvatarURL?.()` (which may be absent,
hence `Option`). -/
structure PUser where
  id : String
  username : String
  displayAvatarOpt : Option String
deriving Repr, DecidableEq

/-- `newPresence.member` as far as the handler reads it:
`member?.user?.username` (optional) and
`member.displayAvatarURL({extension, size})` (always a string). -/
structure PMember where
  username : Option String
  avatarSmallPng : String
deriving Repr, DecidableEq

/-- A `presenceUpdate` event as the handler (lines 66-88) reads it.
`faulted` embeds the per-event `try`/`catch`: a field access that throws
makes the handler drop the event before any mutation. -/
structure PresenceEvent where
  user : Option PUser
  member : Option PMember
  status : String
  faulted : Bool
deriving Repr, DecidableEq

/-- `newPresence.member?.user?.username || newPresence.user?.username`
(line 77): JavaScript `||` also falls through on the empty string. -/
def presenceUsername (u : PUser) (m : Option PMember) : String :=
  match m with
  | some md =>
    match md.username with
    | some name => if name = "" then u.username else name
    | none => u.username
  | none => u.username

/-- Line 72-74: the avatar comes from the member record when present,
otherwise from the optional user-level call. -/
def presenceAvatar (u : PUser) (m : Option PMember) : Option String :=
  match m with
  | some md => some md.avatarSmallPng
  | none => u.displayAvatarOpt

/-- The snapshot written by the presence handler (lines 75-80). -/
def presenceSnapshot (u : PUser) (m : Option PMember) (status : String) :
    MemberSnapshot :=
  { id := u.id
    username := presenceUsername u m
    avatar := presenceAvatar u m
    status := status }

/-- The `presenceUpdate` handler, lines 66-88: ignore the event when the
user is absent or field extraction threw; upsert when the status is
classified; delete otherwise. -/
def handlePresenceUpdate (c : Cache) (e : PresenceEvent) : Cache :=
  if e.faulted then c
  else
    match e.user with
    | none => c
    | some u =>
      if ingestClassified e.status then
        mapSet c u.id (presenceSnapshot u e.member e.status)
      else
        mapDelete c u.id

/-- The `guildMemberRemove` handler, lines 90-92: unconditional delete of
`member.id`. -/
def handleMemberRemove (c : Cache) (memberId : String) : Cache :=
  mapDelete c memberId

/-- `m.presence` as the seeding loop reads it. -/
structure Presence where
  status : String
deriving Repr, DecidableEq

/-- `m.user` as the seeding loop reads it: `u.id`, `u.username`, and the
result of `u.displayAvatarURL({extension png, size 64})`. -/
structure SeedUser where
  id : String
  username : String
  avatarSmallPng : String
deriving Repr, DecidableEq

/-- One member record iterated by `guild.members.cache.forEach`
(lines 43-56).  `malformed` embeds the per-member `try`/`catch`: a record
whose field access throws is skipped. -/
structure SeedMember where
  malformed : Bool
  presence : Option Presence
  user : SeedUser
deriving Repr, DecidableEq

/-- The body of the seeding loop for one member (lines 44-55). -/
def seedOne (c : Cache) (m : SeedMember) : Cache :=
  if m.malformed then c
  else
    match m.presence with
    | none => c
    | some p =>
      if seedClassified p.status then
        mapSet c m.user.id
          { id := m.user.id
            username := m.user.username
            avatar := some m.user.avatarSmallPng
            status := p.status }
      else c

/-- The whole seeding loop over the member collection. -/
def seedAll (c : Cache) (ms : List SeedMember) : Cache :=
  ms.foldl seedOne c

/-- The result of `client.guilds.fetch(guildId)` as the seeding code reads
it: `memberCount` (a JavaScript number field, `0` being falsy), the member
collection already cached by discord.js, and the collection as it stands
after a successful `guild.members.fetch()`. -/
structure Guild where
  memberCount : Nat
  membersCache : List SeedMember
  membersAfterFetch : List SeedMember
deriving Repr, DecidableEq

/-- The guard at line 38:
`guild && guild.memberCount && guild.memberCount < cacheThreshold`.
A fetched guild is a truthy object; a `memberCount` of `0` is falsy. -/
def bulkFetchPerformed (g : Guild) (threshold : Nat) : Bool :=
  (!(g.memberCount = 0)) && (g.memberCount < threshold)

/-- The module-level mutable state of `playercount.js`: `client` (tracked
as whether it is non-null), `enabled`, and the `onlineMembers` map. -/
structure ModuleState where
  hasClient : Bool
  enabled : Bool
  cache : Cache
deriving Repr, DecidableEq

/-- The state at process start: `client = null`, `enabled = false`,
empty map (lines 7-9). -/
def initialState : ModuleState :=
  { hasClient := false, enabled := false, cache := [] }

/-- Outcomes of the external discord.js calls made during `init`:
whether `require('discord.js')` succeeds, whether `client.login` resolves,
whether the `'ready'` event fires before the 3000 ms timeout, the guild
returned by `client.guilds.fetch` (`none` when it throws), and whether a
performed `guild.members.fetch()` resolves (`none` when it throws,
otherwise the fetched state is in `Guild.membersAfterFetch`). -/
structure InitEnv where
  requireOk : Bool
  loginOk : Bool
  readyBeforeTimeout : Bool
  guild : Option Guild
  bulkFetchOk : Bool
deriving Repr, DecidableEq

/-- The cache produced by the seeding block (lines 34-61): a throwing
`guilds.fetch` or `members.fetch` is caught and leaves the map untouched;
otherwise every member of the chosen collection is folded in. -/
def readyCache (c : Cache) (env : InitEnv) (threshold : Nat) : Cache :=
  match env.guild with
  | none => c
  | some g =>
    if bulkFetchPerformed g threshold then
      if env.bulkFetchOk then seedAll c g.membersAfterFetch else c
    else
      seedAll c g.membersCache

/-- The `'ready'` handler (lines 30-64): set `enabled = true` first, then
seed (errors swallowed), then emit the internal ready signal. -/
def applyReady (st : ModuleState) (env : InitEnv) (threshold : Nat) :
    ModuleState :=
  { st with enabled := true, cache := readyCache st.cache env threshold }

/-- The config object destructured by `init` (line 12); `none` stands for
an absent field, and an empty string is as falsy as an absent one. -/
structure InitConfig where
  token : Option String
  guildId : Option String
  cacheThreshold : Option Nat
deriving Repr, DecidableEq

/-- JavaScript truthiness of an optional string: present and nonempty. -/
def truthyStr : Option String → Bool
  | none => false
  | some s => !(s = "")

/-- `cacheThreshold = 2000` default (line 12). -/
def effectiveThreshold (cfg : InitConfig) : Nat :=
  cfg.cacheThreshold.getD 2000

/-- The value `init` returns: `{ enabled: bool }`. -/
structure InitResult where
  enabled : Bool
deriving Repr, DecidableEq

/-- The outcome of one `init` call: the module state it leaves behind, the
value it returns, and whether a connection was attempted (a client was
constructed and `login` called). -/
structure InitOutcome where
  state : ModuleState
  result : InitResult
  connectionAttempted : Bool
deriving Repr, DecidableEq

/-- The body of the `try` at lines 18-106, with a thrown exception made
explicit: the module state is threaded through because `client` is
assigned before `login` can throw and the `catch` does not undo it.
Returns the state together with `Except` of the returned value. -/
def initBody (st : ModuleState) (cfg : InitConfig) (env : InitEnv) :
    ModuleState × Except String InitResult :=
  if !env.requireOk then
    (st, Except.error "Cannot find module discord.js")
  else
    -- line 21: `client = new Client(...)`; handlers registered lines 30-96
    let st1 := { st with hasClient := true }
    if !env.loginOk then
      (st1, Except.error "login failed")
    else if env.readyBeforeTimeout then
      -- the `'ready'` handler ran and resolved the race (line 102)
      (applyReady st1 env (effectiveThreshold cfg), Except.ok { enabled := true })
    else
      -- the 3000 ms timeout resolved the race first (line 103)
      (st1, Except.ok { enabled := true })

/-- `init` (lines 12-112): the missing-config early return, then the
`try`/`catch` around `initBody`; the `catch` (lines 107-111) sets the
module `enabled` flag to false and returns `{ enabled: false }`. -/
def init (st : ModuleState) (cfg : InitConfig) (env : InitEnv) :
    InitOutcome :=
  if !truthyStr cfg.token || !truthyStr cfg.guildId then
    { state := st, result := { enabled := false }, connectionAttempted := false }
  else
    match initBody st cfg env with
    | (st2, Except.ok r) =>
      { state := st2, result := r, connectionAttempted := true }
    | (st2, Except.error _) =>
      { state := { st2 with enabled := false }
        result := { enabled := false }
        connectionAttempted := env.requireOk }

/-- The value `getSummary` returns. -/
structure Summary where
  enabled : Bool
  count : Nat
  members : List MemberSnapshot
deriving Repr, DecidableEq

/-- `getSummary` (lines 114-118): `limit` defaults to 100; disabled gives
the empty summary; otherwise `count` is the map size and `members` is
`Array.from(onlineMembers.values()).slice(0, limit)`. -/
def getSummary (st : ModuleState) (limit : Option Nat) : Summary :=
  if !st.enabled then { enabled := false, count := 0, members := [] }
  else
    { enabled := true
      count := st.cache.length
      members := (st.cache.map Prod.snd).take (limit.getD 100) }

/-- `stop` (lines 120-129).  `destroyOk` is whether the external
`client.destroy()` resolves: when it throws, the `catch` swallows the
error but the lines nulling the client, resetting `enabled` and clearing
the map never run.  When `client` is null the whole body is a no-op. -/
def stop (st : ModuleState) (destroyOk : Bool) : ModuleState :=
  if st.hasClient then
    if destroyOk then { hasClient := false, enabled := false, cache := [] }
    else st
  else st

/-! ### Shared helper lemmas about the classifier -/

theorem seedClassified_eq_isOnlineStatus : seedClassified = isOnlineStatus := rfl

theorem isOnlineStatus_iff (s : String) :
    isOnlineStatus s = true ↔ (s = "online" ∨ s = "idle" ∨ s = "dnd") := by
  simp [isOnlineStatus, onlineStatusList, List.contains]

theorem ingestClassified_eq_isOnlineStatus (s : String) :
    ingestClassified s = isOnlineStatus s := by
  by_cases h : s = ""
  · subst h
    rfl
  · simp [ingestClassified, isOnlineStatus, onlineStatusList, h]

/-- Claim C8: the status classifier accepts exactly the three classified
values, is a total Boolean function on all strings, and the same
classification set is applied at the seeding call site (line 46) and at
the ingestion call site (line 71). -/
theorem classifier_exact_and_shared :
    (∀ s : String, isOnlineStatus s = true ↔
      (s = "online" ∨ s = "idle" ∨ s = "dnd")) ∧
    seedClassified = isOnlineStatus ∧
    (∀ s : String, ingestClassified s = isOnlineStatus s) :=
  ⟨isOnlineStatus_iff, seedClassified_eq_isOnlineStatus,
    ingestClassified_eq_isOnlineStatus⟩

/-- Claim C3: in the enabled state, `getSummary` reports the full map size
as `count` for every limit, and `members` is the first `min limit n`
entries of the map in insertion order. -/
theorem getSummary_count_and_slice (hc : Bool) (c : Cache) (limit : Nat) :
    getSummary { hasClient := hc, enabled := true, cache := c } (some limit) =
      { enabled := true
        count := c.length
        members := (c.map Prod.snd).take limit } ∧
    (getSummary { hasClient := hc, enabled := true, cache := c }
        (some limit)).members.length = min limit c.length := by
  constructor
  · simp [getSummary]
  · simp [getSummary]

/-- Claim C10: with no limit supplied, `getSummary` behaves exactly as
with limit 100: full count, at most the first 100 members in insertion
order. -/
theorem getSummary_default_limit (hc : Bool) (c : Cache) :
    getSummary { hasClient := hc, enabled := true, cache := c } none =
      getSummary { hasClient := hc, enabled := true, cache := c } (some 100) ∧
    getSummary { hasClient := hc, enabled := true, cache := c } none =
      { enabled := true
        count := c.length
        members := (c.map Prod.snd).take 100 } ∧
    (getSummary { hasClient := hc, enabled := true, cache := c }
        none).members.length = min 100 c.length := by
  refine ⟨rfl, ?_, ?_⟩ <;> simp [getSummary]

/-- Claim C7 counterexample: with a member count of 0 — strictly below the
default threshold 2000 — the guard at line 38 still skips the bulk fetch,
because `guild.memberCount` is falsy.  So "performed exactly when the
count is strictly below the threshold" fails at this input. -/
theorem bulkFetch_zero_count_counterexample :
    (0 : Nat) < 2000 ∧
    bulkFetchPerformed
      { memberCount := 0, membersCache := [], membersAfterFetch := [] }
      2000 = false :=
  ⟨by decide, rfl⟩

/-- Claim C7 (amended): the bulk member fetch is performed exactly when
the community's member count is nonzero and strictly below the threshold;
when it is not performed (and when it fails), seeding reads only the
members already cached by the connection layer. -/
theorem bulkFetch_iff_nonzero_below (g : Guild) (t : Nat) :
    (bulkFetchPerformed g t = true ↔
      (g.memberCount ≠ 0 ∧ g.memberCount < t)) ∧
    (∀ (c : Cache) (req log rdy ok : Bool),
      readyCache c
        { requireOk := req, loginOk := log, readyBeforeTimeout := rdy
          guild := some g, bulkFetchOk := ok } t =
        if bulkFetchPerformed g t then
          (if ok then seedAll c g.membersAfterFetch else c)
        else seedAll c g.membersCache) := by
  constructor
  · simp [bulkFetchPerformed]
  · intro c req log rdy ok
    rfl

/-- Claim C5: `init` never raises past its boundary — a missing credential
or community id returns `{ enabled := false }` with no connection attempt
and no state change, and a throwing `try`-body is caught and turned into a
returned `{ enabled := false }` with the module flag reset. -/
theorem init_never_raises (st : ModuleState) (cfg : InitConfig)
    (env : InitEnv) :
    (truthyStr cfg.token = false ∨ truthyStr cfg.guildId = false →
      init st cfg env =
        { state := st, result := { enabled := false }
          connectionAttempted := false }) ∧
    (truthyStr cfg.token = true → truthyStr cfg.guildId = true →
      ∀ e : String, (initBody st cfg env).2 = Except.error e →
        (init st cfg env).result = { enabled := false } ∧
        (init st cfg env).state.enabled = false) := by
  constructor
  · intro h
    rcases h with h | h <;> simp [init, h]
  · intro ht hg e he
    rcases hb : initBody st cfg env with ⟨st2, ex⟩
    rw [hb] at he
    simp only at he
    subst he
    simp [init, ht, hg, hb]

/-- Witness for `init_never_raises` at concrete inputs: a missing token,
and a failing `require('discord.js')`. -/
theorem init_never_raises_witness :
    (truthyStr (none : Option String) = false ∨
      truthyStr (some "g") = false) ∧
    init initialState
        { token := none, guildId := some "g", cacheThreshold := none }
        { requireOk := true, loginOk := true, readyBeforeTimeout := true
          guild := none, bulkFetchOk := true } =
      { state := initialState, result := { enabled := false }
        connectionAttempted := false } ∧
    truthyStr (some "t") = true ∧
    (initBody initialState
        { token := some "t", guildId := some "g", cacheThreshold := none }
        { requireOk := false, loginOk := true, readyBeforeTimeout := true
          guild := none, bulkFetchOk := true }).2 =
      Except.error "Cannot find module discord.js" ∧
    (init initialState
        { token := some "t", guildId := some "g", cacheThreshold := none }
        { requireOk := false, loginOk := true, readyBeforeTimeout := true
          guild := none, bulkFetchOk := true }).result =
      { enabled := false } := by
  refine ⟨Or.inl rfl, ?_, by decide, rfl, ?_⟩
  · exact (init_never_raises initialState _ _).1 (Or.inl rfl)
  · exact ((init_never_raises initialState
      { token := some "t", guildId := some "g", cacheThreshold := none }
      { requireOk := false, loginOk := true, readyBeforeTimeout := true
        guild := none, bulkFetchOk := true }).2 (by decide) (by decide)
      "Cannot find module discord.js" rfl).1

/-- Claim C1 counterexample: with valid config, a successful login, and
the 3000 ms timeout winning the race (ready signal not yet received),
`init` returns `{ enabled := true }` — yet the module `enabled` flag is
still false, so `getSummary` reports disabled, not Ready. -/
theorem timeout_not_enabled_counterexample :
    (init initialState
        { token := some "t", guildId := some "g", cacheThreshold := none }
        { requireOk := true, loginOk := true, readyBeforeTimeout := false
          guild := none, bulkFetchOk := true }).result.enabled = true ∧
    getSummary
        (init initialState
          { token := some "t", guildId := some "g", cacheThreshold := none }
          { requireOk := true, loginOk := true, readyBeforeTimeout := false
            guild := none, bulkFetchOk := true }).state none =
      { enabled := false, count := 0, members := [] } := by
  constructor <;> decide

/-- Claim C1 (amended): `init`'s bounded wait completes on whichever comes
first of the ready signal and the timeout, and in both cases `init`
returns `{ enabled := true }`; but the module is Ready (and `getSummary`
reports enabled) only when the ready signal actually ran — a wait that
completes via the timeout leaves the `enabled` flag and the cache exactly
as they were, so a fresh start still reports disabled to `getSummary`
callers until the ready signal arrives. -/
theorem ready_race_amended (st : ModuleState) (cfg : InitConfig)
    (env : InitEnv) (htok : truthyStr cfg.token = true)
    (hgid : truthyStr cfg.guildId = true) (hreq : env.requireOk = true)
    (hlog : env.loginOk = true) :
    (init st cfg env).result.enabled = true ∧
    (env.readyBeforeTimeout = true →
      (init st cfg env).state.enabled = true ∧
      (getSummary (init st cfg env).state none).enabled = true) ∧
    (env.readyBeforeTimeout = false →
      (init st cfg env).state.enabled = st.enabled ∧
      (init st cfg env).state.cache = st.cache ∧
      (st.enabled = false →
        getSummary (init st cfg env).state none =
          { enabled := false, count := 0, members := [] })) := by
  have hcond : (!truthyStr cfg.token || !truthyStr cfg.guildId) = false := by
    rw [htok, hgid]
    rfl
  by_cases hr : env.readyBeforeTimeout
  · simp [init, initBody, hcond, hreq, hlog, hr, applyReady, getSummary]
  · simp only [Bool.not_eq_true] at hr
    refine ⟨?_, ?_, ?_⟩
    · simp [init, initBody, hcond, hreq, hlog, hr]
    · intro h
      rw [h] at hr
      exact absurd hr (by decide)
    · intro _
      refine ⟨?_, ?_, ?_⟩
      · simp [init, initBody, hcond, hreq, hlog, hr]
      · simp [init, initBody, hcond, hreq, hlog, hr]
      · intro hen
        simp [init, initBody, hcond, hreq, hlog, hr, getSummary, hen]

/-- Witness for `ready_race_amended` at a concrete input where the ready
signal beats the timeout. -/
theorem ready_race_amended_witness :
    truthyStr (some "t") = true ∧ truthyStr (some "g") = true ∧
    (init initialState
        { token := some "t", guildId := some "g", cacheThreshold := none }
        { requireOk := true, loginOk := true, readyBeforeTimeout := true
          guild := none, bulkFetchOk := true }).result.enabled = true := by
  refine ⟨by decide, by decide, ?_⟩
  exact (ready_race_amended initialState
    { token := some "t", guildId := some "g", cacheThreshold := none }
    { requireOk := true, loginOk := true, readyBeforeTimeout := true
      guild := none, bulkFetchOk := true }
    (by decide) (by decide) rfl rfl).1

/-- Claim C4 counterexample: when `client.destroy()` throws, the `catch`
swallows the error but the reset lines never run — `stop` completes with
the cache and the enabled flag untouched, and `getSummary` still reports
enabled, not Disabled. -/
theorem stop_destroy_failure_counterexample :
    stop
      { hasClient := true, enabled := true
        cache := [("u1",
          { id := "u1", username := "alice", avatar := none
            status := "online" })] } false =
      { hasClient := true, enabled := true
        cache := [("u1",
          { id := "u1", username := "alice", avatar := none
            status := "online" })] } ∧
    (getSummary
      (stop
        { hasClient := true, enabled := true
          cache := [("u1",
            { id := "u1", username := "alice", avatar := none
              status := "online" })] } false) none).enabled = true := by
  constructor <;> rfl

/-- Claim C4 (amended): when the teardown call succeeds, `stop` nulls the
client, resets the enabled flag and clears the cache, and every subsequent
`getSummary` returns the disabled summary; when no client was ever
created, `stop` is an idle no-op; a second `stop` after a successful one
changes nothing (the connection is released once); and `stop` always
returns (its own failures are swallowed) — though a failing teardown
leaves the flag and cache untouched. -/
theorem stop_amended (en : Bool) (c : Cache) (ok : Bool) :
    stop { hasClient := true, enabled := en, cache := c } true =
      { hasClient := false, enabled := false, cache := [] } ∧
    getSummary (stop { hasClient := true, enabled := en, cache := c } true)
        none =
      { enabled := false, count := 0, members := [] } ∧
    stop { hasClient := false, enabled := en, cache := c } ok =
      { hasClient := false, enabled := en, cache := c } ∧
    stop (stop { hasClient := true, enabled := en, cache := c } true) ok =
      stop { hasClient := true, enabled := en, cache := c } true :=
  ⟨rfl, rfl, rfl, rfl⟩

/-! ### Shared helper lemmas about the map operations -/

theorem map_fst_mapSet_of_mem (c : Cache) (k : String) (v : MemberSnapshot)
    (h : c.any (fun p => p.1 = k) = true) :
    (mapSet c k v).map Prod.fst = c.map Prod.fst := by
  unfold mapSet
  rw [if_pos h, List.map_map]
  apply List.map_congr_left
  intro p _
  by_cases hp : p.1 = k
  · simp [Function.comp, hp]
  · simp [Function.comp, hp]

theorem nodup_keys_mapSet (c : Cache) (k : String) (v : MemberSnapshot)
    (h : (c.map Prod.fst).Nodup) :
    ((mapSet c k v).map Prod.fst).Nodup := by
  cases hc : c.any (fun p => p.1 = k) with
  | true => rw [map_fst_mapSet_of_mem c k v hc]; exact h
  | false =>
    unfold mapSet
    rw [if_neg (by simp [hc])]
    rw [List.map_append]
    rw [List.nodup_append]
    refine ⟨h, by simp, ?_⟩
    intro a ha hb
    simp at hb
    subst hb
    rcases List.mem_map.mp ha with ⟨p, hp, hpk⟩
    have := List.any_eq_false.mp hc p hp
    simp at this
    exact this hpk

theorem mem_mapSet (c : Cache) (k : String) (v : MemberSnapshot)
    (p : String × MemberSnapshot) (h : p ∈ mapSet c k v) :
    p ∈ c ∨ p = (k, v) := by
  unfold mapSet at h
  split at h
  · rcases List.mem_map.mp h with ⟨q, hq, hfq⟩
    by_cases hqk : q.1 = k
    · right
      rw [← hfq]
      simp [hqk]
    · left
      rw [← hfq]
      simpa [hqk] using hq
  · rcases List.mem_append.mp h with h | h
    · exact Or.inl h
    · right
      simpa using h

theorem mem_mapDelete (c : Cache) (k : String)
    (p : String × MemberSnapshot) (h : p ∈ mapDelete c k) : p ∈ c :=
  (List.mem_filter.mp h).1

theorem nodup_keys_mapDelete (c : Cache) (k : String)
    (h : (c.map Prod.fst).Nodup) :
    ((mapDelete c k).map Prod.fst).Nodup :=
  h.sublist ((List.filter_sublist c).map Prod.fst)

theorem mapGet_mapDelete_self (c : Cache) (k : String) :
    mapGet (mapDelete c k) k = none := by
  have hfind : (mapDelete c k).find? (fun p => p.1 = k) = none := by
    rw [List.find?_eq_none]
    intro x hx
    have hke := (List.mem_filter.mp hx).2
    simp at hke ⊢
    exact hke
  simp [mapGet, hfind]

/-! ### The cache invariant of claim C2 -/

/-- At most one entry per user identifier (the keys are nodup) and every
stored status is classified. -/
def CacheInv (c : Cache) : Prop :=
  (c.map Prod.fst).Nodup ∧ ∀ p ∈ c, isOnlineStatus p.2.status = true

theorem cacheInv_nil : CacheInv ([] : Cache) :=
  ⟨List.nodup_nil, by simp⟩

theorem cacheInv_mapSet (c : Cache) (k : String) (v : MemberSnapshot)
    (h : CacheInv c) (hv : isOnlineStatus v.status = true) :
    CacheInv (mapSet c k v) := by
  refine ⟨nodup_keys_mapSet c k v h.1, ?_⟩
  intro p hp
  rcases mem_mapSet c k v p hp with hp | hp
  · exact h.2 p hp
  · rw [hp]
    exact hv

theorem cacheInv_mapDelete (c : Cache) (k : String) (h : CacheInv c) :
    CacheInv (mapDelete c k) :=
  ⟨nodup_keys_mapDelete c k h.1, fun p hp => h.2 p (mem_mapDelete c k p hp)⟩

theorem cacheInv_seedOne (c : Cache) (m : SeedMember) (h : CacheInv c) :
    CacheInv (seedOne c m) := by
  unfold seedOne
  by_cases hm : m.malformed = true
  · simpa [hm] using h
  · cases hp : m.presence with
    | none => simpa [hm, hp] using h
    | some p =>
      by_cases hs : seedClassified p.status = true
      · have hv : isOnlineStatus p.status = true := by
          rw [← seedClassified_eq_isOnlineStatus]
          exact hs
        simpa [hm, hp, hs] using
          cacheInv_mapSet c m.user.id
            { id := m.user.id, username := m.user.username
              avatar := some m.user.avatarSmallPng, status := p.status }
            h hv
      · simpa [hm, hp, hs] using h

theorem cacheInv_seedAll (ms : List SeedMember) (c : Cache)
    (h : CacheInv c) : CacheInv (seedAll c ms) := by
  induction ms generalizing c with
  | nil => exact h
  | cons m rest ih => exact ih (seedOne c m) (cacheInv_seedOne c m h)

theorem cacheInv_handlePresenceUpdate (c : Cache) (e : PresenceEvent)
    (h : CacheInv c) : CacheInv (handlePresenceUpdate c e) := by
  unfold handlePresenceUpdate
  by_cases hf : e.faulted = true
  · simpa [hf] using h
  · cases hu : e.user with
    | none => simpa [hf, hu] using h
    | some u =>
      by_cases hs : ingestClassified e.status = true
      · have hv : isOnlineStatus (presenceSnapshot u e.member e.status).status
            = true := by
          rw [presenceSnapshot]
          rw [← ingestClassified_eq_isOnlineStatus]
          exact hs
        simpa [hf, hu, hs] using
          cacheInv_mapSet c u.id (presenceSnapshot u e.member e.status) h hv
      · simpa [hf, hu, hs] using cacheInv_mapDelete c u.id h

/-- Claim C2: in every cache state satisfying the invariant — at most one
snapshot per user identifier, every stored status classified — the
invariant is preserved by seeding, by the presence-change handler, by the
membership-removal handler, and by clearing; moreover a presence event
with an unclassified status leaves its member absent from the mapping. -/
theorem cache_invariant_preserved (c : Cache) (h : CacheInv c) :
    (∀ ms : List SeedMember, CacheInv (seedAll c ms)) ∧
    (∀ e : PresenceEvent, CacheInv (handlePresenceUpdate c e)) ∧
    (∀ i : String, CacheInv (handleMemberRemove c i)) ∧
    CacheInv ([] : Cache) ∧
    (∀ (e : PresenceEvent) (u : PUser), e.faulted = false →
      e.user = some u → ingestClassified e.status = false →
      mapGet (handlePresenceUpdate c e) u.id = none) := by
  refine ⟨fun ms => cacheInv_seedAll ms c h,
    fun e => cacheInv_handlePresenceUpdate c e h,
    fun i => cacheInv_mapDelete c i h, cacheInv_nil, ?_⟩
  intro e u hf hu hs
  simp [handlePresenceUpdate, hf, hu, hs, mapGet_mapDelete_self]

/-- Witness for `cache_invariant_preserved` on the empty cache. -/
theorem cache_invariant_preserved_witness :
    CacheInv ([] : Cache) ∧
    CacheInv (handleMemberRemove ([] : Cache) "u1") :=
  ⟨cacheInv_nil, (cache_invariant_preserved [] cacheInv_nil).2.2.1 "u1"⟩

/-! ### Keys match snapshot ids (claim C9) -/

/-- Every entry is stored under its snapshot's own identifier. -/
def KeyInv (c : Cache) : Prop := ∀ p ∈ c, p.1 = p.2.id

theorem keyInv_nil : KeyInv ([] : Cache) := by
  intro p hp
  simp at hp

theorem keyInv_mapSet (c : Cache) (v : MemberSnapshot) (h : KeyInv c) :
    KeyInv (mapSet c v.id v) := by
  intro p hp
  rcases mem_mapSet c v.id v p hp with hp | hp
  · exact h p hp
  · rw [hp]

theorem keyInv_mapDelete (c : Cache) (k : String) (h : KeyInv c) :
    KeyInv (mapDelete c k) :=
  fun p hp => h p (mem_mapDelete c k p hp)

theorem keyInv_seedOne (c : Cache) (m : SeedMember) (h : KeyInv c) :
    KeyInv (seedOne c m) := by
  unfold seedOne
  by_cases hm : m.malformed = true
  · simpa [hm] using h
  · cases hp : m.presence with
    | none => simpa [hm, hp] using h
    | some p =>
      by_cases hs : seedClassified p.status = true
      · simpa [hm, hp, hs] using
          keyInv_mapSet c
            { id := m.user.id, username := m.user.username
              avatar := some m.user.avatarSmallPng, status := p.status } h
      · simpa [hm, hp, hs] using h

theorem keyInv_seedAll (ms : List SeedMember) (c : Cache) (h : KeyInv c) :
    KeyInv (seedAll c ms) := by
  induction ms generalizing c with
  | nil => exact h
  | cons m rest ih => exact ih (seedOne c m) (keyInv_seedOne c m h)

theorem keyInv_handlePresenceUpdate (c : Cache) (e : PresenceEvent)
    (h : KeyInv c) : KeyInv (handlePresenceUpdate c e) := by
  unfold handlePresenceUpdate
  by_cases hf : e.faulted = true
  · simpa [hf] using h
  · cases hu : e.user with
    | none => simpa [hf, hu] using h
    | some u =>
      by_cases hs : ingestClassified e.status = true
      · have hkey : (presenceSnapshot u e.member e.status).id = u.id := rfl
        simpa [hf, hu, hs, hkey] using
          keyInv_mapSet c (presenceSnapshot u e.member e.status) h
      · simpa [hf, hu, hs] using keyInv_mapDelete c u.id h

/-- Claim C9 counterexample: the presence handler validates only that the
user object is present — an empty identifier string is not rejected, so
one well-formed event stores an entry under the empty key in a reachable
(initially empty) cache. -/
theorem empty_id_stored_counterexample :
    handlePresenceUpdate []
      { user := some { id := "", username := "bob", displayAvatarOpt := none }
        member := none, status := "online", faulted := false } =
      [("",
        { id := "", username := "bob", avatar := none
          status := "online" })] := by
  decide

/-- Claim C9 (amended): every upsert stores the snapshot under the key
`snapshot.id` — an invariant preserved by both upsert sites, by removal
and by seeding — and the only validation is that the user object is
present (a user-less presence event is ignored); the identifier itself is
not checked for non-emptiness, so an entry under the empty-string key can
be stored. -/
theorem upsert_key_is_id (c : Cache) (h : KeyInv c) :
    (∀ e : PresenceEvent, KeyInv (handlePresenceUpdate c e)) ∧
    (∀ ms : List SeedMember, KeyInv (seedAll c ms)) ∧
    (∀ i : String, KeyInv (handleMemberRemove c i)) ∧
    (∀ e : PresenceEvent, e.user = none → handlePresenceUpdate c e = c) := by
  refine ⟨fun e => keyInv_handlePresenceUpdate c e h,
    fun ms => keyInv_seedAll ms c h,
    fun i => keyInv_mapDelete c i h, ?_⟩
  intro e hu
  by_cases hf : e.faulted = true
  · simp [handlePresenceUpdate, hf]
  · simp [handlePresenceUpdate, hf, hu]

/-- Witness for `upsert_key_is_id` on the empty cache. -/
theorem upsert_key_is_id_witness :
    KeyInv ([] : Cache) ∧
    KeyInv (handleMemberRemove ([] : Cache) "u1") :=
  ⟨keyInv_nil, (upsert_key_is_id [] keyInv_nil).2.2.1 "u1"⟩

/-! ### Lookup behaviour of the map operations (for claim C6) -/

theorem find?_overwrite_self (c : Cache) (k : String) (v : MemberSnapshot) :
    ((c.map fun p => if p.1 = k then (k, v) else p).find?
        fun p => p.1 = k) =
      if c.any (fun p => p.1 = k) then some (k, v) else none := by
  induction c with
  | nil => rfl
  | cons p rest ih =>
    by_cases hp : p.1 = k
    · have hd : (decide (p.1 = k)) = true := decide_eq_true hp
      simp only [List.map_cons, List.any_cons, List.find?_cons, if_pos hp, hd]
      simp
    · have hd : (decide (p.1 = k)) = false := decide_eq_false hp
      simp only [List.map_cons, List.any_cons, List.find?_cons, if_neg hp, hd]
      simp only [Bool.false_or]
      exact ih

theorem find?_overwrite_ne (c : Cache) (k' k : String) (v : MemberSnapshot)
    (h : k' ≠ k) :
    ((c.map fun p => if p.1 = k' then (k', v) else p).find?
        fun p => p.1 = k) =
      c.find? (fun p => p.1 = k) := by
  induction c with
  | nil => rfl
  | cons p rest ih =>
    by_cases hp : p.1 = k'
    · have hpk : ¬ p.1 = k := fun hk => h (hp ▸ hk)
      have hd : (decide (p.1 = k)) = false := decide_eq_false hpk
      have hd2 : (decide ((k', v).1 = k)) = false := decide_eq_false h
      simp only [List.map_cons, List.find?_cons, if_pos hp, hd, hd2]
      exact ih
    · simp only [List.map_cons, List.find?_cons, if_neg hp]
      by_cases hpk : p.1 = k
      · have hd : (decide (p.1 = k)) = true := decide_eq_true hpk
        simp only [hd]
      · have hd : (decide (p.1 = k)) = false := decide_eq_false hpk
        simp only [hd]
        exact ih

theorem mapGet_mapSet_self (c : Cache) (k : String) (v : MemberSnapshot) :
    mapGet (mapSet c k v) k = some v := by
  unfold mapGet mapSet
  by_cases hc : (c.any fun p => p.1 = k) = true
  · rw [if_pos hc, find?_overwrite_self, if_pos hc]
    rfl
  · rw [if_neg hc, List.find?_append]
    have hnone : c.find? (fun p => p.1 = k) = none := by
      rw [List.find?_eq_none]
      intro x hx
      intro hxk
      exact hc (List.any_eq_true.mpr ⟨x, hx, hxk⟩)
    simp [hnone]

theorem mapGet_mapSet_ne (c : Cache) (k' k : String) (v : MemberSnapshot)
    (h : k' ≠ k) :
    mapGet (mapSet c k' v) k = mapGet c k := by
  unfold mapGet mapSet
  by_cases hc : (c.any fun p => p.1 = k') = true
  · rw [if_pos hc, find?_overwrite_ne c k' k v h]
  · rw [if_neg hc, List.find?_append]
    have hone : (([(k', v)] : Cache).find? fun p => p.1 = k) = none := by
      simp [List.find?_cons, h]
    rw [hone, Option.or_none]

theorem mapGet_mapDelete_ne (c : Cache) (k' k : String) (h : k' ≠ k) :
    mapGet (mapDelete c k') k = mapGet c k := by
  unfold mapGet mapDelete
  induction c with
  | nil => rfl
  | cons p rest ih =>
    rw [List.filter_cons]
    by_cases hp : p.1 = k'
    · have hpk : ¬ p.1 = k := fun hk => h (hp ▸ hk)
      have hd : (decide (p.1 ≠ k')) = false := by simp [hp]
      have hdk : (decide (p.1 = k)) = false := decide_eq_false hpk
      simp only [hd, if_neg, Bool.false_eq_true, if_false, List.find?_cons, hdk]
      exact ih
    · have hd : (decide (p.1 ≠ k')) = true := by simp [hp]
      simp only [hd, if_pos, List.find?_cons]
      by_cases hpk : p.1 = k
      · have hdk : (decide (p.1 = k)) = true := decide_eq_true hpk
        simp only [hdk]
      · have hdk : (decide (p.1 = k)) = false := decide_eq_false hpk
        simp only [hdk]
        exact ih

theorem mapSet_idem (c : Cache) (k : String) (v : MemberSnapshot) :
    mapSet (mapSet c k v) k v = mapSet c k v := by
  by_cases hc : (c.any fun p => p.1 = k) = true
  · unfold mapSet
    rw [if_pos hc]
    have hany : ((c.map fun p => if p.1 = k then (k, v) else p).any
        fun p => p.1 = k) = true := by
      rw [List.any_eq_true]
      rcases List.any_eq_true.mp hc with ⟨p, hp, hpk⟩
      simp only [decide_eq_true_eq] at hpk
      exact ⟨(k, v), List.mem_map.mpr ⟨p, hp, by simp [hpk]⟩, by simp⟩
    rw [if_pos hany, List.map_map]
    apply List.map_congr_left
    intro p _
    by_cases hp : p.1 = k
    · simp [Function.comp, hp]
    · simp [Function.comp, hp]
  · unfold mapSet
    rw [if_neg hc]
    have hany : ((c ++ [(k, v)]).any fun p => p.1 = k) = true := by
      rw [List.any_append]
      simp
    rw [if_pos hany, List.map_append]
    have hmapc : (c.map fun p => if p.1 = k then (k, v) else p) = c := by
      conv_rhs => rw [← List.map_id c]
      apply List.map_congr_left
      intro p hp
      have hk : ¬ p.1 = k := by
        intro hpk
        exact hc (List.any_eq_true.mpr ⟨p, hp, by simpa using hpk⟩)
      simp [hk]
    rw [hmapc]
    simp

theorem mapDelete_idem (c : Cache) (k : String) :
    mapDelete (mapDelete c k) k = mapDelete c k := by
  unfold mapDelete
  rw [List.filter_filter]
  apply List.filter_congr
  intro p _
  exact Bool.and_self _

/-! ### Ingestion event sequences (claim C6) -/

/-- One event consumed by the ingestion loop: a `presenceUpdate` or a
`guildMemberRemove`. -/
inductive IngestEvent where
  | presence (e : PresenceEvent)
  | removal (memberId : String)
deriving Repr, DecidableEq

/-- Dispatch one event to its registered handler. -/
def applyEvent (c : Cache) (ev : IngestEvent) : Cache :=
  match ev with
  | .presence e => handlePresenceUpdate c e
  | .removal i => handleMemberRemove c i

/-- Run a sequence of ingestion events in order. -/
def applyEvents (c : Cache) (evs : List IngestEvent) : Cache :=
  evs.foldl applyEvent c

/-- Whether an event reads or writes the entry with key `k`. -/
def touches (ev : IngestEvent) (k : String) : Bool :=
  match ev with
  | .presence e =>
    if e.faulted then false
    else
      match e.user with
      | none => false
      | some u => u.id = k
  | .removal i => i = k

theorem applyEvents_cons (c : Cache) (ev : IngestEvent)
    (evs : List IngestEvent) :
    applyEvents c (ev :: evs) = applyEvents (applyEvent c ev) evs := rfl

theorem mapGet_applyEvent_untouched (c : Cache) (ev : IngestEvent)
    (k : String) (h : touches ev k = false) :
    mapGet (applyEvent c ev) k = mapGet c k := by
  cases ev with
  | removal i =>
    have hik : i ≠ k := by simpa [touches] using h
    exact mapGet_mapDelete_ne c i k hik
  | presence e =>
    by_cases hf : e.faulted = true
    · simp [applyEvent, handlePresenceUpdate, hf]
    · cases hu : e.user with
      | none => simp [applyEvent, handlePresenceUpdate, hf, hu]
      | some u =>
        have huk : u.id ≠ k := by
          simp only [touches, hf] at h
          simpa [hu] using h
        by_cases hs : ingestClassified e.status = true
        · simp only [applyEvent, handlePresenceUpdate, hf, hu, hs]
          simp only [Bool.false_eq_true, if_false, if_pos hs]
          exact mapGet_mapSet_ne c u.id k _ huk
        · simp only [applyEvent, handlePresenceUpdate, hf, hu]
          simp only [Bool.false_eq_true, if_false, if_neg hs]
          exact mapGet_mapDelete_ne c u.id k huk

theorem mapGet_applyEvent_touched (c c' : Cache) (ev : IngestEvent)
    (k : String) (h : touches ev k = true) :
    mapGet (applyEvent c ev) k = mapGet (applyEvent c' ev) k := by
  cases ev with
  | removal i =>
    have hik : i = k := by simpa [touches] using h
    subst hik
    rw [show applyEvent c (IngestEvent.removal i) = mapDelete c i from rfl]
    rw [show applyEvent c' (IngestEvent.removal i) = mapDelete c' i from rfl]
    rw [mapGet_mapDelete_self, mapGet_mapDelete_self]
  | presence e =>
    by_cases hf : e.faulted = true
    · simp [touches, hf] at h
    · cases hu : e.user with
      | none => simp [touches, hf, hu] at h
      | some u =>
        have huk : u.id = k := by
          simp only [touches, hf] at h
          simpa [hu] using h
        subst huk
        by_cases hs : ingestClassified e.status = true
        · simp only [applyEvent, handlePresenceUpdate, hf, hu]
          simp only [Bool.false_eq_true, if_false, if_pos hs]
          rw [mapGet_mapSet_self, mapGet_mapSet_self]
        · simp only [applyEvent, handlePresenceUpdate, hf, hu]
          simp only [Bool.false_eq_true, if_false, if_neg hs]
          rw [mapGet_mapDelete_self, mapGet_mapDelete_self]

theorem mapGet_applyEvents_untouched (evs : List IngestEvent) (c : Cache)
    (k : String) (h : ∀ ev ∈ evs, touches ev k = false) :
    mapGet (applyEvents c evs) k = mapGet c k := by
  induction evs generalizing c with
  | nil => rfl
  | cons ev rest ih =>
    rw [applyEvents_cons]
    rw [ih (applyEvent c ev) (fun x hx => h x (List.mem_cons_of_mem ev hx))]
    exact mapGet_applyEvent_untouched c ev k (h ev (List.mem_cons_self ev rest))

theorem mapGet_applyEvents_touched (evs : List IngestEvent)
    (c c' : Cache) (k : String)
    (h : ∃ ev ∈ evs, touches ev k = true) :
    mapGet (applyEvents c evs) k = mapGet (applyEvents c' evs) k := by
  induction evs generalizing c c' with
  | nil => simp at h
  | cons ev rest ih =>
    rw [applyEvents_cons, applyEvents_cons]
    by_cases hrest : ∃ x ∈ rest, touches x k = true
    · exact ih (applyEvent c ev) (applyEvent c' ev) hrest
    · have hall : ∀ x ∈ rest, touches x k = false := by
        intro x hx
        cases ht : touches x k with
        | false => rfl
        | true => exact absurd ⟨x, hx, ht⟩ hrest
      have hev : touches ev k = true := by
        rcases h with ⟨x, hx, hxt⟩
        rcases List.mem_cons.mp hx with hx | hx
        · rw [← hx]
          exact hxt
        · exact absurd ⟨x, hx, hxt⟩ hrest
      rw [mapGet_applyEvents_untouched rest (applyEvent c ev) k hall]
      rw [mapGet_applyEvents_untouched rest (applyEvent c' ev) k hall]
      exact mapGet_applyEvent_touched c c' ev k hev

theorem applyEvent_idem (c : Cache) (ev : IngestEvent) :
    applyEvent (applyEvent c ev) ev = applyEvent c ev := by
  cases ev with
  | removal i => exact mapDelete_idem c i
  | presence e =>
    by_cases hf : e.faulted = true
    · simp [applyEvent, handlePresenceUpdate, hf]
    · cases hu : e.user with
      | none => simp [applyEvent, handlePresenceUpdate, hf, hu]
      | some u =>
        by_cases hs : ingestClassified e.status = true
        · simp only [applyEvent, handlePresenceUpdate, hf, hu]
          simp only [Bool.false_eq_true, if_false, if_pos hs]
          exact mapSet_idem c u.id _
        · simp only [applyEvent, handlePresenceUpdate, hf, hu]
          simp only [Bool.false_eq_true, if_false, if_neg hs]
          exact mapDelete_idem c u.id

/-- Claim C6 counterexample: replaying this four-event sequence twice from
the empty cache produces a different final cache state than applying it
once — the key-value contents agree, but the insertion order (which the
backing `Map` keeps and `getSummary` exposes) is reversed, because a
delete followed by a re-insert moves the key to the end. -/
theorem replay_changes_order_counterexample :
    applyEvents
        (applyEvents []
          [IngestEvent.presence
            { user := some { id := "u", username := "u", displayAvatarOpt := none }
              member := none, status := "online", faulted := false },
           IngestEvent.removal "u",
           IngestEvent.presence
            { user := some { id := "u", username := "u", displayAvatarOpt := none }
              member := none, status := "online", faulted := false },
           IngestEvent.presence
            { user := some { id := "v", username := "v", displayAvatarOpt := none }
              member := none, status := "idle", faulted := false }])
        [IngestEvent.presence
          { user := some { id := "u", username := "u", displayAvatarOpt := none }
            member := none, status := "online", faulted := false },
         IngestEvent.removal "u",
         IngestEvent.presence
          { user := some { id := "u", username := "u", displayAvatarOpt := none }
            member := none, status := "online", faulted := false },
         IngestEvent.presence
          { user := some { id := "v", username := "v", displayAvatarOpt := none }
            member := none, status := "idle", faulted := false }] ≠
      applyEvents []
        [IngestEvent.presence
          { user := some { id := "u", username := "u", displayAvatarOpt := none }
            member := none, status := "online", faulted := false },
         IngestEvent.removal "u",
         IngestEvent.presence
          { user := some { id := "u", username := "u", displayAvatarOpt := none }
            member := none, status := "online", faulted := false },
         IngestEvent.presence
          { user := some { id := "v", username := "v", displayAvatarOpt := none }
            member := none, status := "idle", faulted := false }] := by
  decide

/-- Claim C6 (amended): each ingestion handler is idempotent on a single
event — applying the same event's handler twice in a row equals applying
it once — and replaying any event sequence twice yields a cache with the
same key-to-value contents as applying it once (every lookup agrees);
the insertion order of the backing mapping, however, is not necessarily
preserved by a replay. -/
theorem replay_idempotent_contents :
    (∀ (c : Cache) (ev : IngestEvent),
      applyEvent (applyEvent c ev) ev = applyEvent c ev) ∧
    (∀ (c : Cache) (evs : List IngestEvent) (k : String),
      mapGet (applyEvents (applyEvents c evs) evs) k =
        mapGet (applyEvents c evs) k) := by
  refine ⟨applyEvent_idem, ?_⟩
  intro c evs k
  by_cases h : ∃ ev ∈ evs, touches ev k = true
  · exact mapGet_applyEvents_touched evs (applyEvents c evs) c k h
  · have hall : ∀ ev ∈ evs, touches ev k = false := by
      intro x hx
      cases ht : touches x k with
      | false => rfl
      | true => exact absurd ⟨x, hx, ht⟩ h
    exact mapGet_applyEvents_untouched evs (applyEvents c evs) k hall

end Playercount
